import Mathlib

/-!
Shallow embedding of the `quack-quack` chat gateway core
(`src/utils/connection_manager.py` and `src/api/v1/websocket_routes.py`).

Modelling conventions:
* A WebSocket connection handle is a `Nat`.
* The Python `dict[WebSocket, dict]` registry (`active_connections`) is an
  insertion-ordered association list with the CPython `dict` operations:
  assignment replaces the value in place when the key is present and appends
  otherwise; `pop(k, None)` removes the entry when present and is a no-op
  otherwise; `get(k, default)` returns the stored value or the default.
* `random.randint(0, 0xFFFFFF)` is an external effect: the drawn number is
  passed in as an explicit argument (`draw`); the deterministic formatting
  `"#{:06x}".format(draw)` is embedded faithfully (lowercase hex, zero-padded
  to six digits; the draw is bounded by `0xFFFFFF < 16^6`, so six digits are
  exact).
* `await` suspension points during broadcast are modelled by an interference
  function applied to the registry after each send; CPython's dict iterator
  raises `RuntimeError: dictionary changed size during iteration` when the
  dict's size at a `next()` call differs from its size when iteration began,
  which the loop model checks at each step and once more after the last
  element, exactly as `dictiter_iternext` does.
-/

/-- One lowercase hexadecimal digit character, as produced by Python's
`"{:x}"` formatting for a digit value `0 ≤ n ≤ 15`. -/
def hexDigit (n : Nat) : Char :=
  if n < 10 then Char.ofNat (48 + n) else Char.ofNat (87 + n)

/-- Python `"{:06x}".format n` for `n ≤ 0xFFFFFF`: six lowercase hex digits,
zero padded (for `n < 16^6` the width-6 form is exact). -/
def format06x (n : Nat) : String :=
  ⟨[hexDigit (n / 16 ^ 5 % 16), hexDigit (n / 16 ^ 4 % 16), hexDigit (n / 16 ^ 3 % 16),
    hexDigit (n / 16 ^ 2 % 16), hexDigit (n / 16 % 16), hexDigit (n % 16)]⟩

/-- `random_color` from `connection_manager.py`: `"#{:06x}".format(random.randint(0, 0xFFFFFF))`.
The random draw is the explicit argument `n`. -/
def random_color (n : Nat) : String :=
  "#" ++ format06x n

/-- `c` is a lowercase hexadecimal digit character (`0`-`9` or `a`-`f`). -/
def isHexDigitChar (c : Char) : Bool :=
  (48 ≤ c.toNat && c.toNat ≤ 57) || (97 ≤ c.toNat && c.toNat ≤ 102)

/-- A `#RRGGBB` color string: `#` followed by exactly six hex digits. -/
def isHexColor (s : String) : Bool :=
  match s.data with
  | '#' :: rest => rest.length == 6 && rest.all isHexDigitChar
  | _ => false

/-- The per-connection metadata dict `{"color": str, "user_id": str}` stored
in `active_connections`. -/
structure Entry where
  color : String
  user_id : String
deriving DecidableEq, Repr

/-- The `active_connections` dict: insertion-ordered map from connection
handle to metadata. -/
abbrev Registry := List (Nat × Entry)

/-- CPython dict lookup `d.get(k)`: the value stored at the first (unique)
occurrence of the key. -/
def dictGet (reg : Registry) (k : Nat) : Option Entry :=
  (reg.find? (fun p => p.1 = k)).map Prod.snd

/-- CPython dict assignment `d[k] = v`: replace in place when the key is
present (position preserved), append otherwise. -/
def dictSet : Registry → Nat → Entry → Registry
  | [], k, v => [(k, v)]
  | p :: rest, k, v => if p.1 = k then (k, v) :: rest else p :: dictSet rest k v

/-- CPython `d.pop(k, None)`: remove the entry with key `k` when present,
no-op otherwise. -/
def dictPop1 : Registry → Nat → Registry
  | [], _ => []
  | p :: rest, k => if p.1 = k then rest else p :: dictPop1 rest k

/-- The keys of the registry, in insertion order. -/
def regKeys (reg : Registry) : List Nat :=
  reg.map Prod.fst

namespace ConnectionManager

/-- `ConnectionManager.connect`: accept the socket, draw a random color and
insert `{"color": color, "user_id": user_id}` at the handle. `draw` is the
number produced by `random.randint(0, 0xFFFFFF)`. -/
def connect (reg : Registry) (ws : Nat) (user_id : String) (draw : Nat) : Registry :=
  dictSet reg ws ⟨random_color draw, user_id⟩

/-- `ConnectionManager.disconnect`: `self.active_connections.pop(websocket, None)`. -/
def disconnect (reg : Registry) (ws : Nat) : Registry :=
  dictPop1 reg ws

/-- `sender_meta` computed at the top of `broadcast`:
`self.active_connections.get(sender, {"color": "#000000", "user_id": "unknown"})`. -/
def sender_meta (reg : Registry) (sender : Nat) : Entry :=
  (dictGet reg sender).getD ⟨"#000000", "unknown"⟩

/-- The outbound payload `{"message": ..., "color": ...}` sent by
`connection.send_json`. -/
structure Envelope where
  message : String
  color : String
deriving DecidableEq, Repr

/-- The envelope built in `broadcast`'s loop body:
`{"message": f"{sender_meta['user_id']}: {message}", "color": sender_meta["color"]}`. -/
def envelope (reg : Registry) (sender : Nat) (text : String) : Envelope :=
  ⟨(sender_meta reg sender).user_id ++ ": " ++ text, (sender_meta reg sender).color⟩

/-- The `for connection in self.active_connections:` loop of `broadcast`.
The iterator walks the dict's entries by position (`inds` is the list of
remaining positions, initially `List.range initSize`); at each `next()` call,
and once more after the last element, CPython checks whether the dict's size
still equals its size when iteration began and raises
`RuntimeError: dictionary changed size during iteration` otherwise.
`fails conn` says whether `connection.send_json` raises for `conn`; a raise
is caught by the `except Exception` handler, so the loop continues either
way. `interf i reg` is the registry after whatever concurrent connect or
disconnect operations run while the `await`ed send at position `i` is
suspended. Returns `(attempted, delivered, final registry)`; on a
`RuntimeError` the error carries the handles attempted so far. -/
def broadcastLoop (fails : Nat → Bool) (interf : Nat → Registry → Registry)
    (initSize : Nat) : List Nat → Registry → List Nat → List Nat →
    Except (String × List Nat) (List Nat × List Nat × Registry)
  | [], reg, attempted, delivered =>
    if reg.length ≠ initSize then
      .error ("dictionary changed size during iteration", attempted)
    else
      .ok (attempted, delivered, reg)
  | i :: rest, reg, attempted, delivered =>
    if reg.length ≠ initSize then
      .error ("dictionary changed size during iteration", attempted)
    else
      match reg[i]? with
      | none => .error ("index out of range", attempted)
      | some p =>
        broadcastLoop fails interf initSize rest (interf i reg)
          (attempted ++ [p.1])
          (if fails p.1 then delivered else delivered ++ [p.1])

/-- `ConnectionManager.broadcast`: resolve the sender metadata, build the
envelope, then send it to every connection in the live dict. On success
returns the envelope sent, the handles to which a send was attempted, the
handles to which delivery succeeded, and the final registry. -/
def broadcast (reg : Registry) (text : String) (sender : Nat)
    (fails : Nat → Bool) (interf : Nat → Registry → Registry) :
    Except (String × List Nat) (Envelope × List Nat × List Nat × Registry) :=
  (broadcastLoop fails interf reg.length (List.range reg.length) reg [] []).map
    (fun r => (envelope reg sender text, r))

end ConnectionManager

/-- Python truthiness of a Redis `get` result (`decode_responses=True`, so a
string or `None`): `None` and the empty string are falsy, as tested by
`if not user_id:` and `if not username:`. -/
def truthy (o : Option String) : Bool :=
  match o with
  | none => false
  | some s => !s.isEmpty

/-- The Python exceptions the handler model distinguishes. -/
inductive PyError where
  | typeError
deriving DecidableEq, Repr

/-- Python's call protocol for a bound method: the number of arguments passed
(the bound `self` plus the explicit arguments) must equal the function's
parameter count, otherwise a `TypeError` is raised before any of the body
runs. -/
def callBoundMethod (paramCount argCount : Nat) (body : Registry → Registry)
    (reg : Registry) : Except PyError Registry :=
  if argCount = paramCount then .ok (body reg) else .error .typeError

/-- `ConnectionManager.connect` is declared with parameters
`(self, websocket, user_id)`: three parameters. -/
def connect_param_count : Nat := 3

/-- The call `manager.connect(websocket, user_id, username)` in
`chat_websocket` passes four arguments: the bound `manager` plus three
explicit ones. -/
def handler_connect_arg_count : Nat := 4

/-- The display name `chat_websocket` resolves before admission:
`username = redis_client.get(f"user:{user_id}:username")`, falling back to
`user_id` when that lookup is falsy. -/
def handler_display_name (usernames : String → Option String) (user_id : String) : String :=
  match usernames ("user:" ++ user_id ++ ":username") with
  | some s => if s.isEmpty then user_id else s
  | none => user_id

/-- One outcome of `await websocket.receive_text()` in the receive loop. -/
inductive RecvEvent where
  /-- A text frame was received. -/
  | msg (text : String)
  /-- `WebSocketDisconnect` was raised (peer-initiated close). -/
  | disconnected
  /-- Some other exception was raised (protocol error, forced close, ...). -/
  | err
deriving DecidableEq, Repr

/-- How (or whether) the receive loop terminated. -/
inductive LoopExit where
  /-- Terminated via the `except WebSocketDisconnect` handler. -/
  | peerClosed
  /-- Terminated by an exception the handler does not catch. -/
  | uncaught
  /-- The event stream ran out: the loop is still blocked in `receive_text`. -/
  | running
deriving DecidableEq, Repr

/-- The `while True` receive loop of `chat_websocket` together with its
`except WebSocketDisconnect` handler. `events` is the stream of
`receive_text` outcomes. On `RecvEvent.msg` the received text is broadcast
(the loop is the only sender of broadcasts, run without concurrent
interference here). On `RecvEvent.disconnected` the `except` clause runs
`manager.disconnect(websocket)` and the handler returns. On `RecvEvent.err`
— or on a `RuntimeError` escaping `broadcast` — the exception is not a
`WebSocketDisconnect`, so nothing catches it and the handler exits without
calling `disconnect`. Returns the exit cause, the final registry, and the
number of broadcast calls made. -/
def receiveLoop (ws : Nat) (fails : Nat → Bool) :
    List RecvEvent → Registry → LoopExit × Registry × Nat
  | [], reg => (.running, reg, 0)
  | .disconnected :: _, reg => (.peerClosed, ConnectionManager.disconnect reg ws, 0)
  | .err :: _, reg => (.uncaught, reg, 0)
  | .msg t :: rest, reg =>
    match ConnectionManager.broadcast reg t ws fails (fun _ r => r) with
    | .ok (_, _, _, reg') =>
      let r := receiveLoop ws fails rest reg'
      (r.1, r.2.1, r.2.2 + 1)
    | .error _ => (.uncaught, reg, 1)

/-- How a run of `chat_websocket` ended. -/
inductive HandlerOutcome where
  /-- The token did not resolve: `await websocket.close(code=1008)` then
  `return`, before any admission attempt. -/
  | refused (closeCode : Nat)
  /-- The `manager.connect(...)` call raised before inserting anything; the
  exception propagates out of the handler. -/
  | admissionError (e : PyError)
  /-- Admission succeeded and the receive loop ran. -/
  | finished (x : LoopExit)
deriving DecidableEq, Repr

/-- The `chat_websocket` endpoint: resolve `session:{token}` in the session
store; on a falsy result close with code 1008 and return. Otherwise resolve
the username (fallback `user_id`) and call
`manager.connect(websocket, user_id, username)` — four arguments against
`connect`'s three parameters — then run the receive loop. `sessions` and
`usernames` are the Redis lookups, `draw` the color draw the `connect` body
would use, `events` the receive-loop event stream. Returns the outcome, the
final registry and the number of broadcasts performed. -/
def chat_websocket (sessions usernames : String → Option String) (token : String)
    (ws draw : Nat) (fails : Nat → Bool) (events : List RecvEvent)
    (reg : Registry) : HandlerOutcome × Registry × Nat :=
  let uid? := sessions ("session:" ++ token)
  if truthy uid? then
    let user_id := uid?.getD ""
    -- `username` is the third explicit argument of the rejected call below.
    let _username := handler_display_name usernames user_id
    match callBoundMethod connect_param_count handler_connect_arg_count
        (fun r => ConnectionManager.connect r ws user_id draw) reg with
    | .error e => (.admissionError e, reg, 0)
    | .ok reg' =>
      let r := receiveLoop ws fails events reg'
      (.finished r.1, r.2.1, r.2.2)
  else
    (.refused 1008, reg, 0)

/-- One operation on the shared registry, for whole-trace statements about
the `ConnectionManager`. A broadcast carries the set of recipients whose
send fails; it runs without concurrent interference. -/
inductive Op where
  | connect (ws : Nat) (user_id : String) (draw : Nat)
  | disconnect (ws : Nat)
  | broadcast (text : String) (sender : Nat) (fails : Nat → Bool)

/-- Apply one operation to the registry. -/
def applyOp (reg : Registry) : Op → Registry
  | .connect ws uid draw => ConnectionManager.connect reg ws uid draw
  | .disconnect ws => ConnectionManager.disconnect reg ws
  | .broadcast t s fails =>
    match ConnectionManager.broadcast reg t s fails (fun _ r => r) with
    | .ok r => r.2.2.2
    | .error _ => reg

/-- Run a trace of operations from the empty registry created by
`ConnectionManager.__init__`. -/
def runOps (ops : List Op) : Registry :=
  ops.foldl applyOp []

/-! ### Lemmas about the dict operations -/

theorem dictGet_nil (k : Nat) : dictGet [] k = none := rfl

theorem dictGet_cons (p : Nat × Entry) (rest : Registry) (k : Nat) :
    dictGet (p :: rest) k = if p.1 = k then some p.2 else dictGet rest k := by
  by_cases h : p.1 = k <;> simp [dictGet, List.find?_cons, h]

theorem dictGet_eq_none_iff (reg : Registry) (k : Nat) :
    dictGet reg k = none ↔ k ∉ regKeys reg := by
  induction reg with
  | nil => simp [dictGet_nil, regKeys]
  | cons p rest ih =>
    by_cases h : p.1 = k
    · simp [dictGet_cons, regKeys, h, ih]
    · simp [dictGet_cons, regKeys, h, ih]
      tauto

theorem dictGet_dictSet (reg : Registry) (k k' : Nat) (v : Entry) :
    dictGet (dictSet reg k v) k' = if k' = k then some v else dictGet reg k' := by
  induction reg with
  | nil =>
    by_cases h : k' = k
    · simp [dictSet, dictGet_cons, h]
    · have h2 : ¬ k = k' := by omega
      simp [dictSet, dictGet_cons, dictGet_nil, h, h2]
  | cons p rest ih =>
    by_cases hp : p.1 = k
    · by_cases h : k' = k
      · simp [dictSet, hp, dictGet_cons, h]
      · have h2 : ¬ k = k' := by omega
        have h3 : ¬ p.1 = k' := by omega
        simp [dictSet, hp, dictGet_cons, h, h2, h3]
    · by_cases h : p.1 = k'
      · have h2 : ¬ k' = k := by omega
        simp [dictSet, hp, dictGet_cons, h, h2]
      · simp [dictSet, hp, dictGet_cons, h, ih]

theorem regKeys_nil : regKeys [] = [] := rfl

theorem regKeys_cons (p : Nat × Entry) (rest : Registry) :
    regKeys (p :: rest) = p.1 :: regKeys rest := rfl

theorem regKeys_dictSet (reg : Registry) (k : Nat) (v : Entry) :
    regKeys (dictSet reg k v) =
      if k ∈ regKeys reg then regKeys reg else regKeys reg ++ [k] := by
  induction reg with
  | nil => simp [dictSet, regKeys]
  | cons p rest ih =>
    by_cases hp : p.1 = k
    · simp [dictSet, hp, regKeys_cons]
    · have h2 : ¬ k = p.1 := by omega
      by_cases hm : k ∈ regKeys rest
      · simp only [dictSet, if_neg hp, regKeys_cons, ih]
        rw [if_pos hm, if_pos (List.mem_cons.mpr (Or.inr hm))]
      · simp only [dictSet, if_neg hp, regKeys_cons, ih]
        rw [if_neg hm, if_neg (by simp only [List.mem_cons]; push_neg; exact ⟨h2, hm⟩)]
        simp

theorem nodup_regKeys_dictSet (reg : Registry) (k : Nat) (v : Entry)
    (h : (regKeys reg).Nodup) : (regKeys (dictSet reg k v)).Nodup := by
  rw [regKeys_dictSet]
  by_cases hm : k ∈ regKeys reg
  · simpa [hm] using h
  · rw [if_neg hm]
    rw [List.nodup_append]
    refine ⟨h, List.nodup_singleton k, ?_⟩
    intro a ha hak
    simp only [List.mem_singleton] at hak
    exact hm (hak ▸ ha)

theorem dictPop1_sublist (reg : Registry) (k : Nat) :
    List.Sublist (dictPop1 reg k) reg := by
  induction reg with
  | nil => simp [dictPop1]
  | cons p rest ih =>
    by_cases hp : p.1 = k
    · simp only [dictPop1, if_pos hp]
      exact List.sublist_cons_self p rest
    · simpa [dictPop1, hp] using ih.cons₂ p

theorem regKeys_dictPop1_sublist (reg : Registry) (k : Nat) :
    List.Sublist (regKeys (dictPop1 reg k)) (regKeys reg) :=
  (dictPop1_sublist reg k).map Prod.fst

theorem nodup_regKeys_dictPop1 (reg : Registry) (k : Nat)
    (h : (regKeys reg).Nodup) : (regKeys (dictPop1 reg k)).Nodup :=
  (regKeys_dictPop1_sublist reg k).nodup h

theorem dictPop1_of_not_mem (reg : Registry) (k : Nat)
    (h : k ∉ regKeys reg) : dictPop1 reg k = reg := by
  induction reg with
  | nil => rfl
  | cons p rest ih =>
    simp only [regKeys, List.map_cons, List.mem_cons] at h
    push_neg at h
    have h1 : ¬ p.1 = k := by omega
    simp [dictPop1, h1, ih (by simpa [regKeys] using h.2)]

theorem not_mem_regKeys_dictPop1 (reg : Registry) (k : Nat)
    (h : (regKeys reg).Nodup) : k ∉ regKeys (dictPop1 reg k) := by
  induction reg with
  | nil => simp [dictPop1, regKeys]
  | cons p rest ih =>
    simp only [regKeys, List.map_cons, List.nodup_cons] at h
    by_cases hp : p.1 = k
    · subst hp
      simpa [dictPop1, regKeys] using h.1
    · have h2 : ¬ k = p.1 := by omega
      simp only [dictPop1, if_neg hp, regKeys, List.map_cons, List.mem_cons]
      push_neg
      exact ⟨h2, by simpa [regKeys] using ih h.2⟩

theorem dictPop1_dictPop1 (reg : Registry) (k : Nat)
    (h : (regKeys reg).Nodup) : dictPop1 (dictPop1 reg k) k = dictPop1 reg k :=
  dictPop1_of_not_mem _ _ (not_mem_regKeys_dictPop1 reg k h)

theorem dictGet_dictPop1_self (reg : Registry) (k : Nat)
    (h : (regKeys reg).Nodup) : dictGet (dictPop1 reg k) k = none :=
  (dictGet_eq_none_iff _ _).mpr (not_mem_regKeys_dictPop1 reg k h)

theorem dictGet_dictPop1_ne (reg : Registry) (k k' : Nat) (h : k ≠ k') :
    dictGet (dictPop1 reg k') k = dictGet reg k := by
  induction reg with
  | nil => rfl
  | cons p rest ih =>
    by_cases hp : p.1 = k'
    · have h1 : ¬ k' = k := by omega
      simp [dictPop1, hp, dictGet_cons, h1]
    · simp [dictPop1, hp, dictGet_cons, ih]

/-! ### Lemmas about broadcast without concurrent interference -/

/-- The connection handle stored at position `i` of the registry
(defaulting to `0` out of range). -/
def keyAtD (reg : Registry) (i : Nat) : Nat :=
  ((reg[i]?).map Prod.fst).getD 0

theorem keyAtD_eq (reg : Registry) (i : Nat) (h : i < reg.length) :
    keyAtD reg i = (reg.get ⟨i, h⟩).1 := by
  simp [keyAtD, List.getElem?_eq_getElem h]

theorem broadcastLoop_noInterf (fails : Nat → Bool) (reg : Registry) :
    ∀ (inds att del : List Nat), (∀ i ∈ inds, i < reg.length) →
      ConnectionManager.broadcastLoop fails (fun _ r => r) reg.length inds reg att del =
        .ok (att ++ inds.map (keyAtD reg),
             del ++ (inds.map (keyAtD reg)).filter (fun c => !fails c), reg) := by
  intro inds
  induction inds with
  | nil =>
    intro att del _
    simp [ConnectionManager.broadcastLoop]
  | cons i rest ih =>
    intro att del hb
    have hi : i < reg.length := hb i (List.mem_cons_self i rest)
    have hget : reg[i]? = some reg[i] := List.getElem?_eq_getElem hi
    have hrest : ∀ j ∈ rest, j < reg.length := fun j hj => hb j (List.mem_cons_of_mem i hj)
    have hkey : keyAtD reg i = reg[i].1 := by
      simp [keyAtD, hget]
    by_cases hf : fails reg[i].1
    · have step : ConnectionManager.broadcastLoop fails (fun _ r => r) reg.length
          (i :: rest) reg att del =
          ConnectionManager.broadcastLoop fails (fun _ r => r) reg.length rest reg
            (att ++ [reg[i].1]) del := by
        simp [ConnectionManager.broadcastLoop, hget, hf]
      rw [step, ih _ _ hrest]
      simp [hkey, List.filter_cons, hf]
    · have step : ConnectionManager.broadcastLoop fails (fun _ r => r) reg.length
          (i :: rest) reg att del =
          ConnectionManager.broadcastLoop fails (fun _ r => r) reg.length rest reg
            (att ++ [reg[i].1]) (del ++ [reg[i].1]) := by
        simp [ConnectionManager.broadcastLoop, hget, hf]
      rw [step, ih _ _ hrest]
      simp [hkey, List.filter_cons, hf]

theorem range_map_keyAtD (reg : Registry) :
    (List.range reg.length).map (keyAtD reg) = regKeys reg := by
  apply List.ext_getElem
  · simp [regKeys]
  · intro i h1 h2
    have hi : i < reg.length := by simpa using h1
    simp [keyAtD, regKeys, List.getElem_map, List.getElem_range,
      List.getElem?_eq_getElem hi]

/-- Evaluation of `broadcast` when no concurrent registry mutation happens at
the suspension points: it succeeds, attempts a send to every handle in the
registry in order, delivers to exactly the non-failing ones, and leaves the
registry unchanged. -/
theorem broadcast_noInterf (reg : Registry) (text : String) (sender : Nat)
    (fails : Nat → Bool) :
    ConnectionManager.broadcast reg text sender fails (fun _ r => r) =
      .ok (ConnectionManager.envelope reg sender text, regKeys reg,
           (regKeys reg).filter (fun c => !fails c), reg) := by
  unfold ConnectionManager.broadcast
  rw [broadcastLoop_noInterf fails reg (List.range reg.length) [] []
      (fun i hi => List.mem_range.mp hi)]
  simp [range_map_keyAtD, Except.map]

/-- The receive loop changes the registry only through the
`except WebSocketDisconnect` handler: on a `peerClosed` exit the final
registry is `disconnect reg ws`; on any other exit it is `reg` unchanged. -/
theorem receiveLoop_spec (ws : Nat) (fails : Nat → Bool) :
    ∀ (events : List RecvEvent) (reg : Registry),
      ((receiveLoop ws fails events reg).1 = LoopExit.peerClosed →
        (receiveLoop ws fails events reg).2.1 = ConnectionManager.disconnect reg ws) ∧
      ((receiveLoop ws fails events reg).1 ≠ LoopExit.peerClosed →
        (receiveLoop ws fails events reg).2.1 = reg) := by
  intro events
  induction events with
  | nil =>
    intro reg
    simp [receiveLoop]
  | cons e rest ih =>
    intro reg
    cases e with
    | msg t =>
      simpa [receiveLoop, broadcast_noInterf] using ih reg
    | disconnected => simp [receiveLoop]
    | err => simp [receiveLoop]

/-! ### The color string shape -/

theorem isHexDigitChar_hexDigit (m : Nat) (h : m < 16) :
    isHexDigitChar (hexDigit m) = true := by
  interval_cases m <;> decide

theorem data_random_color (n : Nat) :
    (random_color n).data =
      '#' :: [hexDigit (n / 16 ^ 5 % 16), hexDigit (n / 16 ^ 4 % 16),
        hexDigit (n / 16 ^ 3 % 16), hexDigit (n / 16 ^ 2 % 16),
        hexDigit (n / 16 % 16), hexDigit (n % 16)] := rfl

/-- Every color produced by `random_color` is `#` followed by six lowercase
hex digits. -/
theorem isHexColor_random_color (n : Nat) : isHexColor (random_color n) = true := by
  have h16 : ∀ k : Nat, isHexDigitChar (hexDigit (k % 16)) = true :=
    fun k => isHexDigitChar_hexDigit _ (Nat.mod_lt _ (by norm_num))
  simp [isHexColor, data_random_color, h16]

/-! ### Trace invariants for the operation model -/

theorem applyOp_broadcast (reg : Registry) (text : String) (sender : Nat)
    (fails : Nat → Bool) :
    applyOp reg (Op.broadcast text sender fails) = reg := by
  simp [applyOp, broadcast_noInterf]

theorem nodup_regKeys_applyOp (reg : Registry) (op : Op)
    (h : (regKeys reg).Nodup) : (regKeys (applyOp reg op)).Nodup := by
  cases op with
  | connect ws uid draw => exact nodup_regKeys_dictSet _ _ _ h
  | disconnect ws => exact nodup_regKeys_dictPop1 _ _ h
  | broadcast t s fails => rw [applyOp_broadcast]; exact h

/-- Any entry found in the registry after a trace was inserted verbatim by
some `connect` of the trace (or was already in the starting registry). -/
theorem foldl_applyOp_entry_source :
    ∀ (ops : List Op) (reg : Registry) (ws : Nat) (e : Entry),
      (regKeys reg).Nodup →
      dictGet (ops.foldl applyOp reg) ws = some e →
      (∃ uid draw, Op.connect ws uid draw ∈ ops ∧ e = ⟨random_color draw, uid⟩) ∨
      dictGet reg ws = some e := by
  intro ops
  induction ops with
  | nil =>
    intro reg ws e _ h
    exact Or.inr h
  | cons op rest ih =>
    intro reg ws e hnd h
    rcases ih (applyOp reg op) ws e (nodup_regKeys_applyOp reg op hnd) h with hsrc | hbase
    · obtain ⟨uid, draw, hm, he⟩ := hsrc
      exact Or.inl ⟨uid, draw, List.mem_cons_of_mem _ hm, he⟩
    · cases op with
      | connect ws' uid draw =>
        by_cases hw : ws = ws'
        · subst hw
          rw [applyOp, ConnectionManager.connect, dictGet_dictSet, if_pos rfl] at hbase
          exact Or.inl ⟨uid, draw, List.mem_cons_self _ _,
            (Option.some.injEq _ _ ▸ hbase).symm⟩
        · rw [applyOp, ConnectionManager.connect, dictGet_dictSet, if_neg hw] at hbase
          exact Or.inr hbase
      | disconnect ws' =>
        by_cases hw : ws' = ws
        · subst hw
          rw [applyOp] at hbase
          rw [show ConnectionManager.disconnect reg ws' = dictPop1 reg ws' from rfl] at hbase
          rw [dictGet_dictPop1_self reg ws' hnd] at hbase
          exact absurd hbase (by simp)
        · rw [applyOp] at hbase
          rw [show ConnectionManager.disconnect reg ws' = dictPop1 reg ws' from rfl] at hbase
          rw [dictGet_dictPop1_ne reg ws ws' (fun hc => hw hc.symm)] at hbase
          exact Or.inr hbase
      | broadcast t s fails =>
        rw [applyOp_broadcast] at hbase
        exact Or.inr hbase

/-! ### Concrete fixtures -/

/-- The entry admitted for handle 1 with user id `u1` and color draw 5. -/
def entryA : Entry := ⟨random_color 5, "u1"⟩

/-- The entry admitted for handle 2 with user id `u2` and color draw 10. -/
def entryB : Entry := ⟨random_color 10, "u2"⟩

/-- A registry with both handles 1 and 2 admitted. -/
def regAB : Registry := [(1, entryA), (2, entryB)]

/-- A username store where user `u1` has the stored display name `alice`. -/
def usernamesAlice : String → Option String :=
  fun k => if k = "user:u1:username" then some "alice" else none

/-- Concurrent interference that admits handle 3 while the send at iterator
position 0 is suspended. -/
def interfAdmit3 : Nat → Registry → Registry :=
  fun i r => if i = 0 then ConnectionManager.connect r 3 "u3" 7 else r

/-- A failure function under which every send succeeds. -/
def noFails : Nat → Bool := fun _ => false

/-- A failure function under which only the send to handle 2 raises. -/
def failsOnly2 : Nat → Bool := fun c => c == 2

/-- A session store resolving every token to user id `u1`. -/
def sessionsU1 : String → Option String := fun _ => some "u1"

/-! ### Claims -/

/-- C1 (counterexample): the claim says the envelope's `message` field equals
the sender's display name, a colon and a space, then the text. In the code
the registry stores no display name and `broadcast` uses
`sender_meta['user_id']`. Sender `u1` has resolved display name `alice`
(stored under `user:u1:username`), yet the envelope for text `hi` is
`"u1: hi"`, not `"alice: hi"`. -/
theorem C1_counterexample :
    (ConnectionManager.envelope regAB 1 "hi").message = "u1: hi" ∧
    handler_display_name usernamesAlice "u1" = "alice" ∧
    (ConnectionManager.envelope regAB 1 "hi").message ≠
      handler_display_name usernamesAlice "u1" ++ ": " ++ "hi" := by
  refine ⟨rfl, rfl, ?_⟩
  decide

/-- C1 (amended): for every broadcast whose sender is admitted in the
registry, the outbound envelope has exactly the fields `message` and
`color`; `message` equals the sender's stored *user id* (not the resolved
display name), a colon and a space, then the text; `color` equals the
sender's assigned presentation color, which is `#` followed by six lowercase
hex digits. -/
theorem C1_envelope_fields (reg : Registry) (sender : Nat) (uid : String)
    (draw : Nat) (text : String)
    (h : dictGet reg sender = some ⟨random_color draw, uid⟩) :
    ConnectionManager.envelope reg sender text =
      ⟨uid ++ ": " ++ text, random_color draw⟩ ∧
    isHexColor (ConnectionManager.envelope reg sender text).color = true := by
  constructor
  · simp [ConnectionManager.envelope, ConnectionManager.sender_meta, h]
  · simp [ConnectionManager.envelope, ConnectionManager.sender_meta, h,
      isHexColor_random_color]

/-- C1 (witness): evaluated on the concrete registry `regAB`. -/
theorem C1_envelope_fields_witness :
    dictGet regAB 1 = some ⟨random_color 5, "u1"⟩ ∧
    (ConnectionManager.envelope regAB 1 "hi" = ⟨"u1" ++ ": " ++ "hi", random_color 5⟩ ∧
     isHexColor (ConnectionManager.envelope regAB 1 "hi").color = true) :=
  ⟨rfl, C1_envelope_fields regAB 1 "u1" 5 "hi" rfl⟩

/-- C2: for every connection whose token resolves to a user id, the handler
calls `manager.connect(websocket, user_id, username)` — four arguments
against `connect`'s three parameters `(self, websocket, user_id)` — so the
admission call raises `TypeError` before the body inserts anything: the
handler ends in `admissionError`, the registry is unchanged, and no
broadcast or receive-loop step runs. -/
theorem C2_admission_type_error (sessions usernames : String → Option String)
    (token : String) (ws draw : Nat) (fails : Nat → Bool)
    (events : List RecvEvent) (reg : Registry)
    (h : truthy (sessions ("session:" ++ token)) = true) :
    chat_websocket sessions usernames token ws draw fails events reg =
      (HandlerOutcome.admissionError PyError.typeError, reg, 0) := by
  simp [chat_websocket, h, callBoundMethod, connect_param_count,
    handler_connect_arg_count]

/-- C2 (witness): evaluated with a session store that resolves the token. -/
theorem C2_admission_type_error_witness :
    truthy (sessionsU1 ("session:" ++ "tok")) = true ∧
    chat_websocket sessionsU1 usernamesAlice "tok" 1 5 noFails [] regAB =
      (HandlerOutcome.admissionError PyError.typeError, regAB, 0) :=
  ⟨rfl, C2_admission_type_error sessionsU1 usernamesAlice "tok" 1 5 noFails [] regAB rfl⟩

/-- C3 (counterexample): admitting handle 1 a second time is not rejected —
`connect` silently overwrites: after the second admission the stored entry
carries the second call's user id and color, and the first entry is gone. -/
theorem C3_counterexample :
    ConnectionManager.connect (ConnectionManager.connect [] 1 "u1" 5) 1 "u2" 10 =
      [(1, ⟨random_color 10, "u2"⟩)] ∧
    dictGet (ConnectionManager.connect (ConnectionManager.connect [] 1 "u1" 5) 1 "u2" 10) 1 ≠
      some ⟨random_color 5, "u1"⟩ := by
  refine ⟨rfl, ?_⟩
  decide

/-- C3 (amended): `connect` on an already-present handle does not fail loudly
— it silently overwrites the existing entry with the new user id and a
freshly drawn color. The uniqueness half of the claim does hold: the
registry is a dict keyed by the handle, so admission preserves key
uniqueness and at most one entry per handle exists. -/
theorem C3_overwrite_and_unique (reg : Registry) (ws : Nat) (uid : String)
    (draw : Nat) (h : (regKeys reg).Nodup) :
    dictGet (ConnectionManager.connect reg ws uid draw) ws =
      some ⟨random_color draw, uid⟩ ∧
    (regKeys (ConnectionManager.connect reg ws uid draw)).Nodup := by
  constructor
  · simp [ConnectionManager.connect, dictGet_dictSet]
  · exact nodup_regKeys_dictSet _ _ _ h

/-- C3 (witness): evaluated on `regAB`, re-admitting the present handle 1. -/
theorem C3_overwrite_and_unique_witness :
    (regKeys regAB).Nodup ∧
    (dictGet (ConnectionManager.connect regAB 1 "u9" 3) 1 =
      some ⟨random_color 3, "u9"⟩ ∧
     (regKeys (ConnectionManager.connect regAB 1 "u9" 3)).Nodup) :=
  ⟨by decide, C3_overwrite_and_unique regAB 1 "u9" 3 (by decide)⟩

/-- C4 (counterexample): `broadcast` iterates the live dict, not a start-of-
broadcast snapshot. With handles 1 and 2 admitted, a concurrent admission of
handle 3 while the send at iterator position 0 is suspended changes the
dict's size, so the next iterator step raises
`RuntimeError: dictionary changed size during iteration`: the broadcast
aborts having attempted only handle 1, and handle 2 — present at the start
and never removed — never receives the envelope. -/
theorem C4_counterexample :
    ConnectionManager.broadcast regAB "hi" 1 noFails interfAdmit3 =
      .error ("dictionary changed size during iteration", [1]) ∧
    2 ∈ regKeys regAB ∧ 2 ∉ [1] := by
  refine ⟨rfl, by decide, by decide⟩

/-- C4 (amended): the broadcast loop iterates the live registry rather than
a snapshot, so structural mutation at a suspension point aborts the
iteration (see the counterexample). When no concurrent admit or remove runs
during the broadcast, every entry present at its start is attempted exactly
once (the attempted list is exactly the key list, which is duplicate-free)
and the registry is unchanged. -/
theorem C4_quiescent_completeness (reg : Registry) (text : String)
    (sender : Nat) (fails : Nat → Bool) (h : (regKeys reg).Nodup) :
    ConnectionManager.broadcast reg text sender fails (fun _ r => r) =
      .ok (ConnectionManager.envelope reg sender text, regKeys reg,
        (regKeys reg).filter (fun c => !fails c), reg) ∧
    ∀ k ∈ regKeys reg, (regKeys reg).count k = 1 :=
  ⟨broadcast_noInterf reg text sender fails,
   fun _ hk => List.count_eq_one_of_mem h hk⟩

/-- C4 (witness): evaluated on `regAB` with no failures. -/
theorem C4_quiescent_completeness_witness :
    (regKeys regAB).Nodup ∧
    (ConnectionManager.broadcast regAB "hi" 1 noFails (fun _ r => r) =
      .ok (ConnectionManager.envelope regAB 1 "hi", regKeys regAB,
        (regKeys regAB).filter (fun c => !noFails c), regAB) ∧
     ∀ k ∈ regKeys regAB, (regKeys regAB).count k = 1) :=
  ⟨by decide, C4_quiescent_completeness regAB "hi" 1 noFails (by decide)⟩

/-- C5: delivery failures are isolated within one broadcast call: for every
registry state, message, sender and failing subset of recipients, the
broadcast returns normally (no error to the caller), a send is attempted to
every registered handle, and every registered handle whose own send does not
fail receives the envelope. -/
theorem C5_failure_isolation (reg : Registry) (text : String) (sender : Nat)
    (fails : Nat → Bool) :
    ConnectionManager.broadcast reg text sender fails (fun _ r => r) =
      .ok (ConnectionManager.envelope reg sender text, regKeys reg,
        (regKeys reg).filter (fun c => !fails c), reg) ∧
    ∀ k ∈ regKeys reg, fails k = false →
      k ∈ (regKeys reg).filter (fun c => !fails c) := by
  refine ⟨broadcast_noInterf reg text sender fails, fun k hk hf => ?_⟩
  exact List.mem_filter.mpr ⟨hk, by simp [hf]⟩

/-- C6: the sender of a message is included among the recipients of its own
broadcast: whenever the sender is registered, the attempted-recipient list
(the full key list) contains the sender, and when the echo send does not
fail the sender is among the delivered recipients. -/
theorem C6_echo_inclusion (reg : Registry) (text : String) (sender : Nat)
    (fails : Nat → Bool) (h : sender ∈ regKeys reg) :
    ConnectionManager.broadcast reg text sender fails (fun _ r => r) =
      .ok (ConnectionManager.envelope reg sender text, regKeys reg,
        (regKeys reg).filter (fun c => !fails c), reg) ∧
    sender ∈ regKeys reg ∧
    (fails sender = false → sender ∈ (regKeys reg).filter (fun c => !fails c)) := by
  refine ⟨broadcast_noInterf reg text sender fails, h, fun hf => ?_⟩
  exact List.mem_filter.mpr ⟨h, by simp [hf]⟩

/-- C6 (witness): evaluated on `regAB` with sender 1. -/
theorem C6_echo_inclusion_witness :
    1 ∈ regKeys regAB ∧
    (ConnectionManager.broadcast regAB "hi" 1 noFails (fun _ r => r) =
      .ok (ConnectionManager.envelope regAB 1 "hi", regKeys regAB,
        (regKeys regAB).filter (fun c => !noFails c), regAB) ∧
     1 ∈ regKeys regAB ∧
     (noFails 1 = false → 1 ∈ (regKeys regAB).filter (fun c => !noFails c))) :=
  ⟨by decide, C6_echo_inclusion regAB "hi" 1 noFails (by decide)⟩

/-- C7: a connection attempt whose token is absent from or expired in the
session store (a falsy lookup) is closed with policy-violation code 1008 and
the handler returns at once: the registry is untouched (the connection never
appears in it) and zero broadcasts or receive-loop steps run. -/
theorem C7_invalid_token_refused (sessions usernames : String → Option String)
    (token : String) (ws draw : Nat) (fails : Nat → Bool)
    (events : List RecvEvent) (reg : Registry)
    (h : truthy (sessions ("session:" ++ token)) = false) :
    chat_websocket sessions usernames token ws draw fails events reg =
      (HandlerOutcome.refused 1008, reg, 0) := by
  simp [chat_websocket, h]

/-- C7 (witness): evaluated with an empty session store. -/
theorem C7_invalid_token_refused_witness :
    truthy ((fun _ => (none : Option String)) ("session:" ++ "tok")) = false ∧
    chat_websocket (fun _ => none) usernamesAlice "tok" 1 5 noFails [] regAB =
      (HandlerOutcome.refused 1008, regAB, 0) :=
  ⟨rfl, C7_invalid_token_refused (fun _ => none) usernamesAlice "tok" 1 5 noFails [] regAB rfl⟩

/-- C8: `disconnect` is idempotent: removing a handle that is absent leaves
the registry unchanged, and removing the same handle twice equals removing
it once. It never raises — `pop(websocket, None)` has a default, and the
embedding is a total function. -/
theorem C8_disconnect_idempotent (reg : Registry) (ws : Nat)
    (h : (regKeys reg).Nodup) :
    (dictGet reg ws = none → ConnectionManager.disconnect reg ws = reg) ∧
    ConnectionManager.disconnect (ConnectionManager.disconnect reg ws) ws =
      ConnectionManager.disconnect reg ws := by
  constructor
  · intro habs
    exact dictPop1_of_not_mem _ _ ((dictGet_eq_none_iff _ _).mp habs)
  · exact dictPop1_dictPop1 _ _ h

/-- C8 (witness): evaluated on `regAB` with the absent handle 3. -/
theorem C8_disconnect_idempotent_witness :
    (regKeys regAB).Nodup ∧
    ((dictGet regAB 3 = none → ConnectionManager.disconnect regAB 3 = regAB) ∧
     ConnectionManager.disconnect (ConnectionManager.disconnect regAB 3) 3 =
       ConnectionManager.disconnect regAB 3) :=
  ⟨by decide, C8_disconnect_idempotent regAB 3 (by decide)⟩

/-- C9 (counterexample): with handles 1 and 2 admitted, the read loop of
handle 1 terminating with a non-`WebSocketDisconnect` exception
(`RecvEvent.err`: protocol error, forced close, or an error escaping
`broadcast`) exits the handler without deregistering — the loop has
terminated (`uncaught`) yet handle 1's entry is still in the registry,
contradicting the claim that every loop termination deregisters the entry
before the handler exits. -/
theorem C9_counterexample :
    (receiveLoop 1 noFails [RecvEvent.err] regAB).1 = LoopExit.uncaught ∧
    dictGet (receiveLoop 1 noFails [RecvEvent.err] regAB).2.1 1 = some entryA := by
  exact ⟨rfl, rfl⟩

/-- C9 (amended): the handler deregisters exactly on peer-initiated close:
when the read loop terminates via the `except WebSocketDisconnect` handler
the connection's entry is removed from the registry before the handler
exits, but when it terminates on any other unrecoverable read or broadcast
error the registry is left exactly as it was — the entry persists after the
loop has terminated. -/
theorem C9_deregister_only_on_peer_close (ws : Nat) (fails : Nat → Bool)
    (events : List RecvEvent) (reg : Registry) (h : (regKeys reg).Nodup) :
    ((receiveLoop ws fails events reg).1 = LoopExit.peerClosed →
      dictGet (receiveLoop ws fails events reg).2.1 ws = none) ∧
    ((receiveLoop ws fails events reg).1 = LoopExit.uncaught →
      (receiveLoop ws fails events reg).2.1 = reg) := by
  have hs := receiveLoop_spec ws fails events reg
  constructor
  · intro hx
    rw [hs.1 hx]
    exact dictGet_dictPop1_self _ _ h
  · intro hx
    exact hs.2 (by rw [hx]; decide)

/-- C9 (witness): evaluated on `regAB` with a peer-initiated close. -/
theorem C9_deregister_only_on_peer_close_witness :
    (regKeys regAB).Nodup ∧
    (((receiveLoop 1 noFails [RecvEvent.disconnected] regAB).1 = LoopExit.peerClosed →
       dictGet (receiveLoop 1 noFails [RecvEvent.disconnected] regAB).2.1 1 = none) ∧
     ((receiveLoop 1 noFails [RecvEvent.disconnected] regAB).1 = LoopExit.uncaught →
       (receiveLoop 1 noFails [RecvEvent.disconnected] regAB).2.1 = regAB)) :=
  ⟨by decide, C9_deregister_only_on_peer_close 1 noFails [RecvEvent.disconnected] regAB (by decide)⟩

/-- C10: entries are value-like after insertion: over every trace of
connect, disconnect and broadcast operations from the empty registry, any
entry present in the registry carries exactly the user id and the color of
the `connect` that inserted it (so its fields at removal equal those at
insertion), and a broadcast never changes any entry of the registry. -/
theorem C10_entries_immutable (ops : List Op) (ws : Nat) (e : Entry)
    (h : dictGet (runOps ops) ws = some e) :
    (∃ uid draw, Op.connect ws uid draw ∈ ops ∧ e = ⟨random_color draw, uid⟩) ∧
    ∀ (reg : Registry) (text : String) (sender : Nat) (fails : Nat → Bool),
      applyOp reg (Op.broadcast text sender fails) = reg := by
  constructor
  · have h' : dictGet (ops.foldl applyOp []) ws = some e := h
    rcases foldl_applyOp_entry_source ops [] ws e (by simp [regKeys]) h' with hsrc | hbase
    · exact hsrc
    · rw [dictGet_nil] at hbase
      exact absurd hbase (by simp)
  · exact fun reg t s f => applyOp_broadcast reg t s f

/-- C10 (witness): evaluated on the one-connect trace inserting `entryA`. -/
theorem C10_entries_immutable_witness :
    dictGet (runOps [Op.connect 1 "u1" 5]) 1 = some entryA ∧
    ((∃ uid draw, Op.connect 1 uid draw ∈ [Op.connect 1 "u1" 5] ∧
        entryA = ⟨random_color draw, uid⟩) ∧
     ∀ (reg : Registry) (text : String) (sender : Nat) (fails : Nat → Bool),
       applyOp reg (Op.broadcast text sender fails) = reg) :=
  ⟨rfl, C10_entries_immutable [Op.connect 1 "u1" 5] 1 entryA rfl⟩
